import Mathlib

/-!
Verification of the walton-holidays time-off workflow (`src/app.py`).

The embedding models dates as proleptic-Gregorian ordinals (as in Python's
`datetime.date.toordinal`), day counts as rationals (Python floats here only
ever hold small halves and integers), and the two Flask handlers `submit`
and `decision` as pure functions from the request data plus an environment
(the spreadsheet log contents, whether the spreadsheet and SMTP collaborators
succeed, and the clock) to a response together with the resulting log and the
list of successfully sent emails.
-/

set_option maxRecDepth 4000

namespace Walton

/-! ## Calendar arithmetic (Python `datetime.date`) -/

/-- Gregorian leap-year test. -/
def isLeap (y : Nat) : Bool :=
  (y % 4 == 0 && y % 100 != 0) || y % 400 == 0

/-- Length of month `m` (1-based) in year `y`. -/
def daysInMonth (y m : Nat) : Nat :=
  if m = 2 then (if isLeap y then 29 else 28)
  else if m = 4 ∨ m = 6 ∨ m = 9 ∨ m = 11 then 30
  else 31

/-- Days in year `y` strictly before month `m` (1-based). -/
def daysBeforeMonth (y m : Nat) : Nat :=
  (List.range (m - 1)).foldl (fun acc i => acc + daysInMonth y (i + 1)) 0

/-- Proleptic Gregorian ordinal of a date, with 0001-01-01 being day 1,
matching Python's `date.toordinal`. -/
def toOrdinal (y m d : Nat) : Nat :=
  365 * (y - 1) + ((y - 1) / 4 - (y - 1) / 100) + (y - 1) / 400
    + daysBeforeMonth y m + d

/-- Weekday of an ordinal, Monday = 0 … Sunday = 6, matching Python's
`date.weekday()`. -/
def weekday (n : Nat) : Nat := (n + 6) % 7

/-! ## `business_days` and `adjust_half_day` (src/app.py lines 126-141) -/

/-- `business_days(start, end)` from src/app.py: `-1` when `end < start`,
otherwise the loop `cur = start; while cur <= end: if cur.weekday() < 5: days += 1`,
here expressed as a count over the offsets `0 … end-start`. -/
def business_days (start end_ : Nat) : ℚ :=
  if end_ < start then -1
  else ((List.range (end_ + 1 - start)).countP
    (fun i => decide (weekday (start + i) < 5)) : ℚ)

/-- `adjust_half_day(days, duration_type)` from src/app.py: a flat `0.5`
override for `"half"`, identity otherwise. -/
def adjust_half_day (days : ℚ) (duration_type : String) : ℚ :=
  if duration_type = "half" then 1/2 else days

/-- Specification-side count: the number of calendar days in the inclusive
range `[start, end]` whose weekday falls Monday–Friday. -/
def weekdayCount (start end_ : Nat) : Nat :=
  ((Finset.Icc start end_).filter (fun d => weekday d < 5)).card

theorem countP_range_eq_weekdayCount (n : Nat) : ∀ s : Nat,
    (List.range (n + 1)).countP (fun i => decide (weekday (s + i) < 5))
      = weekdayCount s (s + n) := by
  induction n with
  | zero =>
    intro s
    simp [weekdayCount, List.range_succ, Finset.Icc_self, Finset.filter_singleton]
    by_cases h : weekday s < 5 <;> simp [h]
  | succ n ih =>
    intro s
    rw [List.range_succ, List.countP_append, ih s]
    have hins : Finset.Icc s (s + (n + 1)) = insert (s + (n + 1)) (Finset.Icc s (s + n)) := by
      ext x
      simp only [Finset.mem_Icc, Finset.mem_insert]
      omega
    rw [weekdayCount, weekdayCount, hins, Finset.filter_insert]
    have hnot : s + (n + 1) ∉ Finset.Icc s (s + n) := by
      simp [Finset.mem_Icc]
    by_cases h : weekday (s + (n + 1)) < 5
    · rw [if_pos h]
      rw [Finset.card_insert_of_not_mem (fun hmem => hnot (Finset.mem_of_mem_filter _ hmem))]
      simp [h]
    · rw [if_neg h]
      simp [h]

/-- For `start ≤ end`, the loop in `business_days` computes exactly the
Monday–Friday day count of the inclusive range. -/
theorem business_days_eq_weekdayCount (s e : Nat) (h : s ≤ e) :
    business_days s e = (weekdayCount s e : ℚ) := by
  have h1 : e + 1 - s = (e - s) + 1 := by omega
  have h2 : s + (e - s) = e := by omega
  rw [business_days, if_neg (by omega), h1, countP_range_eq_weekdayCount (e - s) s, h2]

/-! ## String helpers (Python string methods used by the handlers) -/

/-- Python `str.strip()`: remove leading and trailing whitespace. -/
def pyStrip (s : String) : String :=
  String.mk (((s.data.dropWhile Char.isWhitespace).reverse.dropWhile
    Char.isWhitespace).reverse)

/-- Python `str.capitalize()`: first character uppercased, the rest
lowercased. -/
def pyCapitalize (s : String) : String :=
  match s.data with
  | [] => ""
  | c :: rest => String.mk (c.toUpper :: rest.map Char.toLower)

/-- Split a character list on a separator character (Python `str.split(sep)`
semantics: `n` separators yield `n+1` groups, empty groups included). -/
def splitOnChar (c : Char) : List Char → List (List Char)
  | [] => [[]]
  | x :: xs =>
    if x = c then [] :: splitOnChar c xs
    else
      match splitOnChar c xs with
      | [] => [[x]]
      | g :: gs => (x :: g) :: gs

/-- Read a non-empty all-digit character list as a number. -/
def digitsToNat (l : List Char) : Option Nat :=
  if l ≠ [] ∧ l.all Char.isDigit then
    some (l.foldl (fun acc c => acc * 10 + (c.toNat - 48)) 0)
  else none

/-- `datetime.strptime(s, "%Y-%m-%d").date()` as used by both handlers:
three dash-separated numeric fields forming a valid Gregorian date (year
1–9999); the result is the date's ordinal. Malformed input is `none`
(Python raises `ValueError`, caught by the callers). -/
def parseDate (s : String) : Option Nat :=
  match splitOnChar ('-' : Char) s.data with
  | [ys, ms, ds] =>
    match digitsToNat ys, digitsToNat ms, digitsToNat ds with
    | some y, some m, some d =>
      if 1 ≤ y ∧ y ≤ 9999 ∧ 1 ≤ m ∧ m ≤ 12 ∧ 1 ≤ d ∧ d ≤ daysInMonth y m then
        some (toOrdinal y m d)
      else none
    | _, _, _ => none
  | _ => none

/-! ## Data model: log records, emails, environment -/

/-- One row of the `Requests` sheet, in its fixed column order
(src/app.py lines 244-256 and 395-407). -/
structure Rec where
  timestamp : String
  name : String
  email : String
  approver : String
  start : String
  end_ : String
  days : ℚ
  duration : String
  typeOfLeave : String
  reason : String
  status : String
deriving DecidableEq, Repr

/-- A successfully delivered email (recipients after `send_email`'s
filter-empty-then-strip normalisation; `bodyDays` is the day count
interpolated into the HTML body). -/
structure Email where
  toAddrs : List String
  ccAddrs : List String
  subject : String
  bodyDays : ℚ
deriving DecidableEq, Repr

/-- One row of the `Staff List` sheet as returned by `load_staff_list`. -/
structure StaffEntry where
  name : String
  email : String
  approver : String
deriving DecidableEq, Repr

/-- The world a handler call runs against: current log contents, whether the
requests-sheet operations succeed, whether SMTP delivery works, and the
timestamp `datetime.utcnow()` would produce. -/
structure Env where
  log : List Rec
  sheetOk : Bool
  emailOk : Bool
  timestamp : String
deriving DecidableEq, Repr

/-- Approver mailboxes and the oversight CC address (env-config defaults of
src/app.py lines 30-33; overriding them does not affect any verified
property). -/
def EMAIL_MARK : String := "mw@walton.fr"

def EMAIL_NHAN : String := "nhan@walton.fr"

def EMAIL_ANH : String := "anh@walton.fr"

def ALWAYS_CC : String := "mw@walton.fr"

/-- `approver_email_map.get(approver, EMAIL_MARK)` (src/app.py lines 260-267):
unknown identifiers fall back to `EMAIL_MARK`. -/
def approverEmailFor (a : String) : String :=
  if a = "Mark" then EMAIL_MARK
  else if a = "Nhàn" then EMAIL_NHAN
  else if a = "Nhan" then EMAIL_NHAN
  else if a = "Anh" then EMAIL_ANH
  else EMAIL_MARK

/-- `send_email` (src/app.py lines 147-176): drop falsy recipients, strip the
rest; raise when nothing is left or SMTP is unavailable. `none` models a
raised exception, `some e` a delivered email. -/
def trySend (emailOk : Bool) (toAddrs ccAddrs : List String)
    (subject : String) (bodyDays : ℚ) : Option Email :=
  let tos := (toAddrs.filter (fun a => a ≠ "")).map pyStrip
  if tos = [] then none
  else if emailOk then
    some ⟨tos, (ccAddrs.filter (fun a => a ≠ "")).map pyStrip, subject, bodyDays⟩
  else none

/-! ## The `/submit` handler (src/app.py lines 195-346) -/

/-- Python truthiness of `form.get(key)`: `None` and `""` are falsy. -/
def truthy : Option String → Bool
  | none => false
  | some s => s ≠ ""

/-- Lookup in the dict `{m["name"]: ... for m in staff_list}`: the comprehension
lets later entries overwrite earlier ones, so the last entry with the name
wins. -/
def lookupLast (staff : List StaffEntry) (nm : String) : Option StaffEntry :=
  match staff with
  | [] => none
  | e :: rest =>
    match lookupLast rest nm with
    | some r => some r
    | none => if e.name = nm then some e else none

/-- The POST body of `/submit` as Flask's `form.get` delivers it (`none` for
an absent field). -/
structure SubmitForm where
  employee_name : Option String
  start_date : Option String
  end_date : Option String
  duration_type : Option String
  type_of_leave : Option String
  reason : Option String
deriving DecidableEq, Repr

/-- What `/submit` answers: a 400 `Response(msg)`, an uncaught exception
(Flask's 500), or the 200 `submitted.html` page with its template
arguments. -/
inductive SubmitResult where
  | badRequest (msg : String)
  | serverError
  | confirmation (approver start end_ : String) (days : ℚ)
deriving DecidableEq, Repr

/-- Result of one `/submit` call: the HTTP response, the log contents
afterwards, and the emails actually delivered. -/
structure SubmitOut where
  response : SubmitResult
  log : List Rec
  emails : List Email
deriving DecidableEq, Repr

/-- The single `try` around both sends in `/submit` (lines 291-337): if the
approver send raises, the employee send is never attempted; every exception
is caught and only printed. -/
def submitEmails (emailOk : Bool) (approver_email employee_email : String)
    (days : ℚ) : List Email :=
  match trySend emailOk [approver_email] [] "Walton Time Off – New request" days with
  | none => []
  | some e1 =>
    match trySend emailOk [employee_email] [] "Walton Time Off – Request received" days with
    | none => [e1]
    | some e2 => [e1, e2]

/-- The `/submit` handler. Staff loading is modelled by the `staff` argument;
the requests-sheet calls (`get_requests_sheet`, `append_row`, lines 241-257)
are NOT inside any `try`, so `env.sheetOk = false` propagates as an uncaught
exception (`serverError`). -/
def submitModel (form : SubmitForm) (staff : List StaffEntry) (env : Env) :
    SubmitOut :=
  if ¬(truthy form.employee_name && truthy form.start_date
      && truthy form.end_date && truthy form.type_of_leave) then
    ⟨.badRequest "Missing fields", env.log, []⟩
  else
    let employee_name := form.employee_name.getD ""
    let start_str := form.start_date.getD ""
    let end_str := form.end_date.getD ""
    let duration_type := form.duration_type.getD "full"
    let type_of_leave := form.type_of_leave.getD ""
    let reason := pyStrip (form.reason.getD "")
    match lookupLast staff employee_name with
    | none => ⟨.badRequest "Employee email not found", env.log, []⟩
    | some entry =>
      if entry.email = "" then
        ⟨.badRequest "Employee email not found", env.log, []⟩
      else if entry.approver = "" then
        ⟨.badRequest "Approver not configured for this employee", env.log, []⟩
      else
        match parseDate start_str, parseDate end_str with
        | some d1, some d2 =>
          let days := business_days d1 d2
          if days = -1 then
            ⟨.badRequest "End date cannot be before start", env.log, []⟩
          else if duration_type = "half" ∧ d1 ≠ d2 then
            ⟨.badRequest "Half day allowed only when start=end", env.log, []⟩
          else
            let days2 := adjust_half_day days duration_type
            if env.sheetOk then
              let row : Rec :=
                { timestamp := env.timestamp, name := employee_name,
                  email := entry.email, approver := entry.approver,
                  start := start_str, end_ := end_str, days := days2,
                  duration := duration_type, typeOfLeave := type_of_leave,
                  reason := reason, status := "Pending" }
              ⟨.confirmation entry.approver start_str end_str days2,
                env.log ++ [row],
                submitEmails env.emailOk (approverEmailFor entry.approver)
                  entry.email days2⟩
            else
              ⟨.serverError, env.log, []⟩
        | _, _ => ⟨.badRequest "Invalid date format", env.log, []⟩

/-! ## The `/decision` handler (src/app.py lines 352-442) -/

/-- The query string of `/decision` after Flask's `args.get` defaults:
`status` has no default (`none` when absent); `email`, `name`, `reason`
default to `""` and `dt` to `"full"`; the date parameters `sd`, `ed` are
modelled as present (every claim involves them). -/
structure DecisionQuery where
  status : Option String
  email : String
  name : String
  sd : String
  ed : String
  reason : String
  dt : String
deriving DecidableEq, Repr

/-- What `/decision` answers: 400 `Response("Invalid status")` or the 200
`decision_result.html` page with its template arguments. -/
inductive DecisionResult where
  | badRequest (msg : String)
  | page (name email start end_ : String) (days : ℚ) (status : String)
deriving DecidableEq, Repr

/-- Result of one `/decision` call. -/
structure DecisionOut where
  response : DecisionResult
  log : List Rec
  emails : List Email
deriving DecidableEq, Repr

/-- Lines 366-372: recompute days from the link parameters; any parse failure
falls back to `days = 1.0`. There is no check for the `-1` sentinel. -/
def decisionDays (sd ed dt : String) : ℚ :=
  match parseDate sd, parseDate ed with
  | some d1, some d2 => adjust_half_day (business_days d1 d2) dt
  | _, _ => 1

/-- The row-match predicate of the scan at lines 384-388:
`(email, start, end, status == "Pending")`. -/
def matchesPending (e sd ed : String) (r : Rec) : Bool :=
  r.email == e && r.start == sd && r.end_ == ed && r.status == "Pending"

/-- The scan `for idx in range(len(rows)-1, 0, -1)` (newest to oldest, header
row excluded): the index of the LAST matching record, if any. -/
def findLatestPendingIdx (log : List Rec) (e sd ed : String) : Option Nat :=
  match log with
  | [] => none
  | r :: rest =>
    match findLatestPendingIdx rest e sd ed with
    | some i => some (i + 1)
    | none => if matchesPending e sd ed r then some 0 else none

/-- `sheet.update_cell(pending_row, 11, ...)`: overwrite only the Status
column of the record at index `i`. -/
def updateStatusAt : List Rec → Nat → String → List Rec
  | [], _, _ => []
  | r :: rest, 0, st => { r with status := st } :: rest
  | r :: rest, i + 1, st => r :: updateStatusAt rest i st

/-- The synthetic record appended at lines 395-407 when no Pending row
matches: approver column `"Decision"`, empty type-of-leave, capitalized
status. -/
def fallbackRec (q : DecisionQuery) (env : Env) (days : ℚ) (st : String) : Rec :=
  { timestamp := env.timestamp, name := q.name, email := q.email,
    approver := "Decision", start := q.sd, end_ := q.ed, days := days,
    duration := q.dt, typeOfLeave := "", reason := q.reason,
    status := pyCapitalize st }

/-- The `/decision` handler. The whole sheet block (lines 375-410) is inside
one `try/except` that only prints, so `env.sheetOk = false` leaves the log
unchanged and the handler proceeds; the employee email (lines 424-432) is
likewise caught. -/
def decisionModel (q : DecisionQuery) (env : Env) : DecisionOut :=
  match q.status with
  | none => ⟨.badRequest "Invalid status", env.log, []⟩
  | some st =>
    if st = "approved" ∨ st = "rejected" then
      let days := decisionDays q.sd q.ed q.dt
      let log2 :=
        if env.sheetOk then
          match findLatestPendingIdx env.log q.email q.sd q.ed with
          | some i => updateStatusAt env.log i (pyCapitalize st)
          | none => env.log ++ [fallbackRec q env days st]
        else env.log
      let emails :=
        match trySend env.emailOk [q.email] [ALWAYS_CC]
            ("Walton Time Off – Request " ++ st) days with
        | some e => [e]
        | none => []
      ⟨.page q.name q.email q.sd q.ed days st, log2, emails⟩
    else ⟨.badRequest "Invalid status", env.log, []⟩

/-! ## Properties of the scan and the in-place status update -/

theorem findLatest_lt_length {e sd ed : String} : ∀ {log : List Rec} {i : Nat},
    findLatestPendingIdx log e sd ed = some i → i < log.length := by
  intro log
  induction log with
  | nil => intro i h; simp [findLatestPendingIdx] at h
  | cons r rest ih =>
    intro i h
    simp only [findLatestPendingIdx] at h
    cases hrec : findLatestPendingIdx rest e sd ed with
    | some j =>
      rw [hrec] at h
      simp only [Option.some.injEq] at h
      have := ih hrec
      simp only [List.length_cons]
      omega
    | none =>
      rw [hrec] at h
      by_cases hm : matchesPending e sd ed r
      · simp [hm] at h
        simp only [List.length_cons]
        omega
      · simp [hm] at h

theorem findLatest_matches {e sd ed : String} : ∀ {log : List Rec} {i : Nat},
    findLatestPendingIdx log e sd ed = some i →
    ∃ r, log[i]? = some r ∧ matchesPending e sd ed r = true := by
  intro log
  induction log with
  | nil => intro i h; simp [findLatestPendingIdx] at h
  | cons r rest ih =>
    intro i h
    simp only [findLatestPendingIdx] at h
    cases hrec : findLatestPendingIdx rest e sd ed with
    | some j =>
      rw [hrec] at h
      simp only [Option.some.injEq] at h
      obtain ⟨r2, hr2, hm2⟩ := ih hrec
      exact ⟨r2, by rw [← h]; simpa using hr2, hm2⟩
    | none =>
      rw [hrec] at h
      by_cases hm : matchesPending e sd ed r
      · simp [hm] at h
        exact ⟨r, by rw [← h]; simp, hm⟩
      · simp [hm] at h

theorem memOfGetElem {l : List Rec} : ∀ {i : Nat} {r : Rec},
    l[i]? = some r → r ∈ l := by
  induction l with
  | nil => intro i r h; simp at h
  | cons x xs ih =>
    intro i r h
    cases i with
    | zero =>
      simp only [List.getElem?_cons_zero, Option.some.injEq] at h
      rw [← h]
      exact List.mem_cons_self _ _
    | succ i' =>
      simp only [List.getElem?_cons_succ] at h
      exact List.mem_cons_of_mem _ (ih h)

theorem findLatest_none_forall {e sd ed : String} : ∀ {log : List Rec},
    findLatestPendingIdx log e sd ed = none →
    ∀ r ∈ log, matchesPending e sd ed r = false := by
  intro log
  induction log with
  | nil => intro _ r hr; simp at hr
  | cons x xs ih =>
    intro h r hr
    simp only [findLatestPendingIdx] at h
    cases hx : findLatestPendingIdx xs e sd ed with
    | some m => rw [hx] at h; simp at h
    | none =>
      rw [hx] at h
      by_cases hm : matchesPending e sd ed x
      · simp [hm] at h
      · rcases List.mem_cons.mp hr with h1 | h1
        · subst h1; simpa using hm
        · exact ih hx r h1

theorem findLatest_is_latest {e sd ed : String} : ∀ {log : List Rec} {i : Nat},
    findLatestPendingIdx log e sd ed = some i →
    ∀ j r2, i < j → log[j]? = some r2 → matchesPending e sd ed r2 = false := by
  intro log
  induction log with
  | nil => intro i h; simp [findLatestPendingIdx] at h
  | cons r rest ih =>
    intro i h j r2 hij hj
    simp only [findLatestPendingIdx] at h
    cases hrec : findLatestPendingIdx rest e sd ed with
    | some k =>
      rw [hrec] at h
      simp only [Option.some.injEq] at h
      cases j with
      | zero => omega
      | succ j' =>
        simp only [List.getElem?_cons_succ] at hj
        exact ih hrec j' r2 (by omega) hj
    | none =>
      rw [hrec] at h
      by_cases hm : matchesPending e sd ed r
      · simp [hm] at h
        cases j with
        | zero => omega
        | succ j' =>
          simp only [List.getElem?_cons_succ] at hj
          exact findLatest_none_forall hrec r2 (memOfGetElem hj)
      · simp [hm] at h

theorem findLatest_some_of_mem {e sd ed : String} {log : List Rec} {r : Rec}
    (hr : r ∈ log) (hm : matchesPending e sd ed r = true) :
    ∃ i, findLatestPendingIdx log e sd ed = some i := by
  cases h : findLatestPendingIdx log e sd ed with
  | some i => exact ⟨i, rfl⟩
  | none => exact absurd hm (by simp [findLatest_none_forall h r hr])

theorem updateStatusAt_length (st : String) : ∀ (log : List Rec) (i : Nat),
    (updateStatusAt log i st).length = log.length := by
  intro log
  induction log with
  | nil => intro i; cases i <;> rfl
  | cons r rest ih =>
    intro i
    cases i with
    | zero => rfl
    | succ i' => simp [updateStatusAt, ih i']

theorem updateStatusAt_getElem_ne (st : String) : ∀ (log : List Rec) (i j : Nat),
    j ≠ i → (updateStatusAt log i st)[j]? = log[j]? := by
  intro log
  induction log with
  | nil => intro i j _; cases i <;> rfl
  | cons r rest ih =>
    intro i j hne
    cases i with
    | zero =>
      cases j with
      | zero => omega
      | succ j' => simp [updateStatusAt]
    | succ i' =>
      cases j with
      | zero => simp [updateStatusAt]
      | succ j' => simp [updateStatusAt, ih i' j' (by omega)]

theorem updateStatusAt_getElem_eq (st : String) : ∀ (log : List Rec) (i : Nat)
    (r : Rec), log[i]? = some r →
    (updateStatusAt log i st)[i]? = some { r with status := st } := by
  intro log
  induction log with
  | nil => intro i r h; simp at h
  | cons x rest ih =>
    intro i r h
    cases i with
    | zero =>
      simp only [List.getElem?_cons_zero, Option.some.injEq] at h
      subst h
      simp [updateStatusAt]
    | succ i' =>
      simp only [List.getElem?_cons_succ] at h
      simp [updateStatusAt, ih i' r h]

theorem updateStatusAt_mem (st : String) : ∀ (log : List Rec) (i : Nat),
    ∀ r ∈ updateStatusAt log i st, r ∈ log ∨ r.status = st := by
  intro log
  induction log with
  | nil => intro i r hr; cases i <;> simp [updateStatusAt] at hr
  | cons x rest ih =>
    intro i r hr
    cases i with
    | zero =>
      rcases List.mem_cons.mp hr with h1 | h1
      · right; rw [h1]
      · left; exact List.mem_cons_of_mem _ h1
    | succ i' =>
      rcases List.mem_cons.mp hr with h1 | h1
      · left; rw [h1]; exact List.mem_cons_self _ _
      · rcases ih i' r h1 with h2 | h2
        · left; exact List.mem_cons_of_mem _ h2
        · right; exact h2

/-! ## Claim theorems -/

/-- Claim C3: `business_days(start, end)` returns `-1` when `end < start`, and
otherwise the count of calendar days in the inclusive range `[start, end]`
whose weekday is Monday–Friday; a single Monday–Friday day counts 1, a single
Saturday/Sunday counts 0, `business_days(2024-01-01, 2024-01-05) = 5`, and
`business_days(2024-01-06, 2024-01-07) = 0`. -/
theorem C3_business_days_correct (s e d : Nat) :
    business_days s e = (if e < s then -1 else (weekdayCount s e : ℚ))
    ∧ business_days d d = (if weekday d < 5 then 1 else 0)
    ∧ business_days (toOrdinal 2024 1 1) (toOrdinal 2024 1 5) = 5
    ∧ business_days (toOrdinal 2024 1 6) (toOrdinal 2024 1 7) = 0 := by
  refine ⟨?_, ?_, by decide, by decide⟩
  · by_cases h : e < s
    · simp [business_days, h]
    · rw [if_neg h, business_days_eq_weekdayCount s e (by omega)]
  · rw [business_days_eq_weekdayCount d d (le_refl d), weekdayCount,
      Finset.Icc_self, Finset.filter_singleton]
    by_cases h : weekday d < 5 <;> simp [h]

/-- Claim C8: `adjust_half_day(days, durationType)` returns exactly `0.5`
whenever `durationType` is `half`, for every `days` (a flat override), and
returns `days` unchanged for every other `durationType`. -/
theorem C8_adjust_half_day_flat (days : ℚ) (dt : String) :
    adjust_half_day days "half" = 1/2
    ∧ (dt ≠ "half" → adjust_half_day days dt = days) := by
  refine ⟨by simp [adjust_half_day], fun h => ?_⟩
  simp [adjust_half_day, h]

theorem C8_adjust_half_day_flat_witness :
    adjust_half_day 7 "half" = 1/2 ∧ adjust_half_day 7 "full" = 7 :=
  ⟨(C8_adjust_half_day_flat 7 "full").1,
   (C8_adjust_half_day_flat 7 "full").2 (by decide)⟩

/-- Unfolding of `decisionModel` for a valid status. -/
theorem decisionModel_valid (q : DecisionQuery) (env : Env) (st : String)
    (hst : q.status = some st) (hv : st = "approved" ∨ st = "rejected") :
    decisionModel q env =
      ⟨.page q.name q.email q.sd q.ed (decisionDays q.sd q.ed q.dt) st,
       if env.sheetOk then
         match findLatestPendingIdx env.log q.email q.sd q.ed with
         | some i => updateStatusAt env.log i (pyCapitalize st)
         | none => env.log ++ [fallbackRec q env (decisionDays q.sd q.ed q.dt) st]
       else env.log,
       match trySend env.emailOk [q.email] [ALWAYS_CC]
           ("Walton Time Off – Request " ++ st) (decisionDays q.sd q.ed q.dt) with
       | some e => [e]
       | none => []⟩ := by
  simp only [decisionModel, hst, if_pos hv]

/-- Claim C6: for every log with at least one record matching
`(email, start, end, status == Pending)`, `decide` with a valid status
updates the status field of the most recent such record (newest-to-oldest
scan, first match wins) to the decided status, and leaves every other field
of that record and every other record unchanged. -/
theorem C6_decide_updates_latest_pending (q : DecisionQuery) (env : Env)
    (st : String) (hst : q.status = some st)
    (hv : st = "approved" ∨ st = "rejected") (hsheet : env.sheetOk = true)
    (hex : ∃ r ∈ env.log, matchesPending q.email q.sd q.ed r = true) :
    ∃ i r, findLatestPendingIdx env.log q.email q.sd q.ed = some i
      ∧ env.log[i]? = some r
      ∧ matchesPending q.email q.sd q.ed r = true
      ∧ (∀ j r2, i < j → env.log[j]? = some r2 →
          matchesPending q.email q.sd q.ed r2 = false)
      ∧ (decisionModel q env).log.length = env.log.length
      ∧ (decisionModel q env).log[i]? = some { r with status := pyCapitalize st }
      ∧ (∀ j, j ≠ i → (decisionModel q env).log[j]? = env.log[j]?) := by
  obtain ⟨r0, hr0, hm0⟩ := hex
  obtain ⟨i, hi⟩ := findLatest_some_of_mem hr0 hm0
  obtain ⟨r, hr, hm⟩ := findLatest_matches hi
  have hlog : (decisionModel q env).log = updateStatusAt env.log i (pyCapitalize st) := by
    rw [decisionModel_valid q env st hst hv]
    simp [hsheet, hi]
  refine ⟨i, r, hi, hr, hm,
    fun j r2 hij hj => findLatest_is_latest hi j r2 hij hj, ?_, ?_, ?_⟩
  · rw [hlog, updateStatusAt_length]
  · rw [hlog]
    exact updateStatusAt_getElem_eq _ _ _ _ hr
  · intro j hj
    rw [hlog]
    exact updateStatusAt_getElem_ne _ _ _ _ hj

/-- Two Pending duplicates for Alice around an unrelated record: the scan
must pick the newest (index 2). -/
def recA1 : Rec :=
  ⟨"T1", "Alice", "a@x.com", "Mark", "2024-03-04", "2024-03-05", 2, "full", "Holiday", "", "Pending"⟩

def recB : Rec :=
  ⟨"T2", "Bob", "b@x.com", "Anh", "2024-03-04", "2024-03-05", 2, "full", "Holiday", "", "Pending"⟩

def recA2 : Rec :=
  ⟨"T3", "Alice", "a@x.com", "Mark", "2024-03-04", "2024-03-05", 2, "full", "Holiday", "", "Pending"⟩

def q6 : DecisionQuery :=
  ⟨some "approved", "a@x.com", "Alice", "2024-03-04", "2024-03-05", "", "full"⟩

def env6 : Env := ⟨[recA1, recB, recA2], true, true, "T9"⟩

theorem C6_decide_updates_latest_pending_witness :
    ∃ i r, findLatestPendingIdx env6.log q6.email q6.sd q6.ed = some i
      ∧ env6.log[i]? = some r
      ∧ matchesPending q6.email q6.sd q6.ed r = true
      ∧ (∀ j r2, i < j → env6.log[j]? = some r2 →
          matchesPending q6.email q6.sd q6.ed r2 = false)
      ∧ (decisionModel q6 env6).log.length = env6.log.length
      ∧ (decisionModel q6 env6).log[i]? = some { r with status := pyCapitalize "approved" }
      ∧ (∀ j, j ≠ i → (decisionModel q6 env6).log[j]? = env6.log[j]?) :=
  C6_decide_updates_latest_pending q6 env6 "approved" rfl (Or.inl rfl) rfl
    ⟨recA2, by decide, by decide⟩

/-- Claim C7: for every `decide` call with a valid status and no record
matching `(email, start, end, status == Pending)`, a new synthetic decision
record is appended to the log, carrying the decided (capitalized) status. -/
theorem C7_decide_fallback_appends (q : DecisionQuery) (env : Env)
    (st : String) (hst : q.status = some st)
    (hv : st = "approved" ∨ st = "rejected") (hsheet : env.sheetOk = true)
    (hnone : findLatestPendingIdx env.log q.email q.sd q.ed = none) :
    (decisionModel q env).log
      = env.log ++ [fallbackRec q env (decisionDays q.sd q.ed q.dt) st]
    ∧ (fallbackRec q env (decisionDays q.sd q.ed q.dt) st).status
        = pyCapitalize st
    ∧ pyCapitalize st = (if st = "approved" then "Approved" else "Rejected") := by
  refine ⟨?_, rfl, ?_⟩
  · rw [decisionModel_valid q env st hst hv]
    simp [hsheet, hnone]
  · rcases hv with h | h <;> subst h <;> decide

theorem C7_decide_fallback_appends_witness :
    (decisionModel
        ⟨some "rejected", "a@x.com", "Alice", "2024-03-04", "2024-03-05", "", "full"⟩
        ⟨[], true, true, "T9"⟩).log
      = [] ++ [fallbackRec
          ⟨some "rejected", "a@x.com", "Alice", "2024-03-04", "2024-03-05", "", "full"⟩
          ⟨[], true, true, "T9"⟩ (decisionDays "2024-03-04" "2024-03-05" "full") "rejected"]
    ∧ (fallbackRec
          ⟨some "rejected", "a@x.com", "Alice", "2024-03-04", "2024-03-05", "", "full"⟩
          ⟨[], true, true, "T9"⟩ (decisionDays "2024-03-04" "2024-03-05" "full") "rejected").status
        = pyCapitalize "rejected"
    ∧ pyCapitalize "rejected" = (if "rejected" = "approved" then "Approved" else "Rejected") :=
  C7_decide_fallback_appends
    ⟨some "rejected", "a@x.com", "Alice", "2024-03-04", "2024-03-05", "", "full"⟩
    ⟨[], true, true, "T9"⟩ "rejected" rfl (Or.inr rfl) rfl (by decide)

/-- The Status column invariant: only `"Pending"`, `"Approved"`,
`"Rejected"` ever appear. -/
def statusOKb (r : Rec) : Bool :=
  r.status == "Pending" || r.status == "Approved" || r.status == "Rejected"

/-- The `/submit` handler either leaves the log unchanged or appends exactly
one row whose Status is `"Pending"`. -/
theorem submitModel_log_cases (form : SubmitForm) (staff : List StaffEntry)
    (env : Env) :
    (submitModel form staff env).log = env.log
    ∨ ∃ row : Rec, (submitModel form staff env).log = env.log ++ [row]
        ∧ row.status = "Pending" := by
  unfold submitModel
  dsimp only
  repeat' split
  all_goals first
    | (left; rfl)
    | (right; exact ⟨_, rfl, rfl⟩)

/-- Claim C10: every value the program ever writes into the Status column is
one of exactly `"Pending"`, `"Approved"`, `"Rejected"`: `submit` writes
`"Pending"`, and `decide` (which first rejects any status outside
`{approved, rejected}`) writes only the capitalized form of an accepted
status, whether updating a matched record or appending the fallback
record. -/
theorem C10_status_column_closed (form : SubmitForm) (staff : List StaffEntry)
    (q : DecisionQuery) (env : Env)
    (hinv : env.log.all statusOKb = true) :
    (submitModel form staff env).log.all statusOKb = true
    ∧ (decisionModel q env).log.all statusOKb = true := by
  rw [List.all_eq_true] at hinv
  constructor
  · rw [List.all_eq_true]
    rcases submitModel_log_cases form staff env with h | ⟨row, h, hs⟩
    · rw [h]; exact hinv
    · rw [h]
      intro r hr
      rcases List.mem_append.mp hr with h1 | h1
      · exact hinv r h1
      · rw [List.mem_singleton.mp h1]
        simp [statusOKb, hs]
  · rw [List.all_eq_true]
    cases hst : q.status with
    | none =>
      have : decisionModel q env = ⟨.badRequest "Invalid status", env.log, []⟩ := by
        simp only [decisionModel, hst]
      rw [this]; exact hinv
    | some st =>
      by_cases hv : st = "approved" ∨ st = "rejected"
      · have hcap : statusOKb { recA1 with status := pyCapitalize st } = true := by
          rcases hv with h | h <;> subst h <;> decide
        have hcap2 : ∀ r : Rec, r.status = pyCapitalize st → statusOKb r = true := by
          intro r h
          simp only [statusOKb] at hcap ⊢
          rw [h]
          simpa using hcap
        rw [decisionModel_valid q env st hst hv]
        simp only
        by_cases hsh : env.sheetOk
        · simp only [hsh, if_true]
          cases hfind : findLatestPendingIdx env.log q.email q.sd q.ed with
          | some i =>
            intro r hr
            rcases updateStatusAt_mem _ env.log i r hr with h1 | h1
            · exact hinv r h1
            · exact hcap2 r h1
          | none =>
            intro r hr
            rcases List.mem_append.mp hr with h1 | h1
            · exact hinv r h1
            · rw [List.mem_singleton.mp h1]
              exact hcap2 _ rfl
        · simp only [hsh, if_false]
          exact hinv
      · have : decisionModel q env = ⟨.badRequest "Invalid status", env.log, []⟩ := by
          simp only [decisionModel, hst, if_neg hv]
        rw [this]; exact hinv

theorem C10_status_column_closed_witness :
    (submitModel
        ⟨some "Alice", some "2024-03-04", some "2024-03-06", some "full",
         some "Holiday", some ""⟩
        [⟨"Alice", "a@x.com", "Mark"⟩] env6).log.all statusOKb = true
    ∧ (decisionModel q6 env6).log.all statusOKb = true :=
  C10_status_column_closed
    ⟨some "Alice", some "2024-03-04", some "2024-03-06", some "full",
     some "Holiday", some ""⟩
    [⟨"Alice", "a@x.com", "Mark"⟩] q6 env6 (by decide)

/-- Whether a `/submit` response is a 400 `Response`. -/
def isBadRequestB : SubmitResult → Bool
  | .badRequest _ => true
  | _ => false

/-- Claim C9: every submit request with `duration_type = half` and
`start_date ≠ end_date` is rejected with a validation error (HTTP 400)
before any record is appended or any notification is sent. -/
theorem C9_half_day_mismatch_rejected (form : SubmitForm)
    (staff : List StaffEntry) (env : Env) (d1 d2 : Nat)
    (hdt : form.duration_type.getD "full" = "half")
    (hp1 : parseDate (form.start_date.getD "") = some d1)
    (hp2 : parseDate (form.end_date.getD "") = some d2)
    (hne : d1 ≠ d2) :
    isBadRequestB (submitModel form staff env).response = true
    ∧ (submitModel form staff env).log = env.log
    ∧ (submitModel form staff env).emails = [] := by
  unfold submitModel
  dsimp only
  repeat' split
  all_goals first
    | exact ⟨rfl, rfl, rfl⟩
    | simp_all

theorem C9_half_day_mismatch_rejected_witness :
    isBadRequestB (submitModel
        ⟨some "Alice", some "2024-03-04", some "2024-03-05", some "half",
         some "Holiday", some ""⟩
        [⟨"Alice", "a@x.com", "Mark"⟩] env6).response = true
    ∧ (submitModel
        ⟨some "Alice", some "2024-03-04", some "2024-03-05", some "half",
         some "Holiday", some ""⟩
        [⟨"Alice", "a@x.com", "Mark"⟩] env6).log = env6.log
    ∧ (submitModel
        ⟨some "Alice", some "2024-03-04", some "2024-03-05", some "half",
         some "Holiday", some ""⟩
        [⟨"Alice", "a@x.com", "Mark"⟩] env6).emails = [] :=
  C9_half_day_mismatch_rejected
    ⟨some "Alice", some "2024-03-04", some "2024-03-05", some "half",
     some "Holiday", some ""⟩
    [⟨"Alice", "a@x.com", "Mark"⟩] env6 738949 738950
    (by decide) (by decide) (by decide) (by decide)

theorem trySend_false (toA ccA : List String) (s : String) (d : ℚ) :
    trySend false toA ccA s d = none := by
  unfold trySend
  dsimp only
  split <;> simp

theorem submitEmails_false (ae ee : String) (d : ℚ) :
    submitEmails false ae ee d = [] := by
  unfold submitEmails
  rw [trySend_false]

/-- The Pending row `/submit` appends (src/app.py lines 244-256). -/
def submitRow (form : SubmitForm) (env : Env) (entry : StaffEntry)
    (days2 : ℚ) : Rec :=
  { timestamp := env.timestamp, name := form.employee_name.getD "",
    email := entry.email, approver := entry.approver,
    start := form.start_date.getD "", end_ := form.end_date.getD "",
    days := days2, duration := form.duration_type.getD "full",
    typeOfLeave := form.type_of_leave.getD "",
    reason := pyStrip (form.reason.getD ""), status := "Pending" }

/-- Unfolding of `submitModel` when every validation step passes. -/
theorem submitModel_valid_eq (form : SubmitForm) (staff : List StaffEntry)
    (env : Env) (entry : StaffEntry) (d1 d2 : Nat)
    (hf : (truthy form.employee_name && truthy form.start_date
        && truthy form.end_date && truthy form.type_of_leave) = true)
    (hlk : lookupLast staff (form.employee_name.getD "") = some entry)
    (he : entry.email ≠ "") (ha : entry.approver ≠ "")
    (hp1 : parseDate (form.start_date.getD "") = some d1)
    (hp2 : parseDate (form.end_date.getD "") = some d2)
    (hm1 : business_days d1 d2 ≠ -1)
    (hhalf : ¬(form.duration_type.getD "full" = "half" ∧ d1 ≠ d2)) :
    submitModel form staff env =
      if env.sheetOk then
        ⟨.confirmation entry.approver (form.start_date.getD "") (form.end_date.getD "")
            (adjust_half_day (business_days d1 d2) (form.duration_type.getD "full")),
         env.log ++ [submitRow form env entry
            (adjust_half_day (business_days d1 d2) (form.duration_type.getD "full"))],
         submitEmails env.emailOk (approverEmailFor entry.approver) entry.email
            (adjust_half_day (business_days d1 d2) (form.duration_type.getD "full"))⟩
      else ⟨.serverError, env.log, []⟩ := by
  unfold submitModel
  dsimp only
  rw [hf]
  simp only [not_true, if_false, Bool.not_true]
  rw [hlk]
  dsimp only
  rw [if_neg he, if_neg ha, hp1, hp2]
  dsimp only
  rw [if_neg hm1, if_neg hhalf]
  rfl

/-- Claim C1 (amended): if the approver notification fails during submit, the
exception is caught and only logged — the submitter still receives the
confirmation page (HTTP 200); no DeliveryError/500 is surfaced, and the 200
does not depend on the notification attempt having succeeded. -/
theorem C1_submit_confirms_despite_notify_failure (form : SubmitForm)
    (staff : List StaffEntry) (env : Env) (entry : StaffEntry) (d1 d2 : Nat)
    (hf : (truthy form.employee_name && truthy form.start_date
        && truthy form.end_date && truthy form.type_of_leave) = true)
    (hlk : lookupLast staff (form.employee_name.getD "") = some entry)
    (he : entry.email ≠ "") (ha : entry.approver ≠ "")
    (hp1 : parseDate (form.start_date.getD "") = some d1)
    (hp2 : parseDate (form.end_date.getD "") = some d2)
    (hm1 : business_days d1 d2 ≠ -1)
    (hhalf : ¬(form.duration_type.getD "full" = "half" ∧ d1 ≠ d2))
    (hsheet : env.sheetOk = true) :
    (submitModel form staff env).response
      = .confirmation entry.approver (form.start_date.getD "")
          (form.end_date.getD "")
          (adjust_half_day (business_days d1 d2) (form.duration_type.getD "full"))
    ∧ (env.emailOk = false → (submitModel form staff env).emails = []) := by
  rw [submitModel_valid_eq form staff env entry d1 d2 hf hlk he ha hp1 hp2
    hm1 hhalf, if_pos hsheet]
  exact ⟨rfl, fun h => by simp only [h, submitEmails_false]⟩

/-- A fully valid submission: Alice, Mon 2024-03-04 → Wed 2024-03-06, full
days, approved by Mark. -/
def form1 : SubmitForm :=
  ⟨some "Alice", some "2024-03-04", some "2024-03-06", some "full",
   some "Holiday", some ""⟩

def staff1 : List StaffEntry := [⟨"Alice", "alice@x.com", "Mark"⟩]

/-- World where the sheet works but SMTP is down. -/
def env1 : Env := ⟨[], true, false, "T0"⟩

theorem C1_counterexample_email_failure_still_200 :
    (submitModel form1 staff1 env1).response
      = .confirmation "Mark" "2024-03-04" "2024-03-06" 3
    ∧ (submitModel form1 staff1 env1).emails = [] := by decide

theorem C1_submit_confirms_despite_notify_failure_witness :
    (submitModel form1 staff1 env1).response
      = .confirmation "Mark" "2024-03-04" "2024-03-06"
          (adjust_half_day (business_days 738949 738951) "full")
    ∧ (env1.emailOk = false → (submitModel form1 staff1 env1).emails = []) :=
  C1_submit_confirms_despite_notify_failure form1 staff1 env1
    ⟨"Alice", "alice@x.com", "Mark"⟩ 738949 738951
    (by decide) (by decide) (by decide) (by decide) (by decide) (by decide)
    (by decide) (by decide) rfl

/-- Claim C2 (amended): in `decide`, any I/O failure of the log store is
caught and logged and never aborts the user-facing response — the page and
the notification attempt are exactly what they would be with a working
store, and the log is left unchanged. In `submit`, however, the
requests-sheet append is NOT guarded: a store failure aborts the request
with an uncaught exception (HTTP 500) before any notification is
attempted. -/
theorem C2_store_failure_policy (q : DecisionQuery) (form : SubmitForm)
    (staff : List StaffEntry) (env : Env) (entry : StaffEntry) (d1 d2 : Nat)
    (hf : (truthy form.employee_name && truthy form.start_date
        && truthy form.end_date && truthy form.type_of_leave) = true)
    (hlk : lookupLast staff (form.employee_name.getD "") = some entry)
    (he : entry.email ≠ "") (ha : entry.approver ≠ "")
    (hp1 : parseDate (form.start_date.getD "") = some d1)
    (hp2 : parseDate (form.end_date.getD "") = some d2)
    (hm1 : business_days d1 d2 ≠ -1)
    (hhalf : ¬(form.duration_type.getD "full" = "half" ∧ d1 ≠ d2))
    (hsheet : env.sheetOk = false) :
    (decisionModel q env).response
      = (decisionModel q { env with sheetOk := true }).response
    ∧ (decisionModel q env).emails
      = (decisionModel q { env with sheetOk := true }).emails
    ∧ (decisionModel q env).log = env.log
    ∧ (submitModel form staff env).response = .serverError
    ∧ (submitModel form staff env).log = env.log
    ∧ (submitModel form staff env).emails = [] := by
  have hdec : (decisionModel q env).response
        = (decisionModel q { env with sheetOk := true }).response
      ∧ (decisionModel q env).emails
        = (decisionModel q { env with sheetOk := true }).emails
      ∧ (decisionModel q env).log = env.log := by
    cases hst : q.status with
    | none => simp [decisionModel, hst]
    | some st =>
      by_cases hv : st = "approved" ∨ st = "rejected"
      · rw [decisionModel_valid q env st hst hv,
          decisionModel_valid q { env with sheetOk := true } st hst hv]
        refine ⟨rfl, rfl, ?_⟩
        simp [hsheet]
      · simp [decisionModel, hst, hv]
  have hneg : ¬(env.sheetOk = true) := by simp [hsheet]
  refine ⟨hdec.1, hdec.2.1, hdec.2.2, ?_, ?_, ?_⟩
  all_goals
    rw [submitModel_valid_eq form staff env entry d1 d2 hf hlk he ha hp1 hp2
      hm1 hhalf, if_neg hneg]

/-- World where SMTP works but the spreadsheet store fails. -/
def env2 : Env := ⟨[], false, true, "T0"⟩

theorem C2_counterexample_submit_append_aborts :
    (submitModel form1 staff1 env2).response = .serverError
    ∧ (submitModel form1 staff1 env2).emails = [] := by decide

theorem C2_store_failure_policy_witness :
    (decisionModel q6 env2).response
      = (decisionModel q6 { env2 with sheetOk := true }).response
    ∧ (decisionModel q6 env2).emails
      = (decisionModel q6 { env2 with sheetOk := true }).emails
    ∧ (decisionModel q6 env2).log = env2.log
    ∧ (submitModel form1 staff1 env2).response = .serverError
    ∧ (submitModel form1 staff1 env2).log = env2.log
    ∧ (submitModel form1 staff1 env2).emails = [] :=
  C2_store_failure_policy q6 form1 staff1 env2
    ⟨"Alice", "alice@x.com", "Mark"⟩ 738949 738951
    (by decide) (by decide) (by decide) (by decide) (by decide) (by decide)
    (by decide) (by decide) rfl

theorem approverEmailFor_unknown (a : String) (h1 : a ≠ "Mark")
    (h2 : a ≠ "Nhàn") (h3 : a ≠ "Nhan") (h4 : a ≠ "Anh") :
    approverEmailFor a = EMAIL_MARK := by
  unfold approverEmailFor
  rw [if_neg h1, if_neg h2, if_neg h3, if_neg h4]

theorem trySend_true_single (a : String) (s : String) (d : ℚ) (h : a ≠ "") :
    trySend true [a] [] s d = some ⟨[pyStrip a], [], s, d⟩ := by
  unfold trySend
  simp [h]

/-- The first (approver) email delivered by the submit try-block. -/
theorem submitEmails_head (ae ee : String) (d : ℚ) (h : ae ≠ "") :
    (submitEmails true ae ee d).head?
      = some ⟨[pyStrip ae], [], "Walton Time Off – New request", d⟩ := by
  unfold submitEmails
  rw [trySend_true_single ae _ d h]
  cases trySend true [ee] [] "Walton Time Off – Request received" d <;> rfl

/-- Claim C4 (amended): a submit whose configured approver identifier is
outside the known set {Mark, Nhàn, Nhan, Anh} is NOT rejected with a 400:
it passes validation (only a missing/empty approver is rejected), and the
approver notification is dispatched to the default mailbox `EMAIL_MARK`. -/
theorem C4_unknown_approver_defaults_to_mark (form : SubmitForm)
    (staff : List StaffEntry) (env : Env) (entry : StaffEntry) (d1 d2 : Nat)
    (hf : (truthy form.employee_name && truthy form.start_date
        && truthy form.end_date && truthy form.type_of_leave) = true)
    (hlk : lookupLast staff (form.employee_name.getD "") = some entry)
    (he : entry.email ≠ "") (ha : entry.approver ≠ "")
    (hp1 : parseDate (form.start_date.getD "") = some d1)
    (hp2 : parseDate (form.end_date.getD "") = some d2)
    (hm1 : business_days d1 d2 ≠ -1)
    (hhalf : ¬(form.duration_type.getD "full" = "half" ∧ d1 ≠ d2))
    (hsheet : env.sheetOk = true) (hmail : env.emailOk = true)
    (h1 : entry.approver ≠ "Mark") (h2 : entry.approver ≠ "Nhàn")
    (h3 : entry.approver ≠ "Nhan") (h4 : entry.approver ≠ "Anh") :
    isBadRequestB (submitModel form staff env).response = false
    ∧ (submitModel form staff env).emails.head?
        = some ⟨[pyStrip EMAIL_MARK], [], "Walton Time Off – New request",
            adjust_half_day (business_days d1 d2)
              (form.duration_type.getD "full")⟩ := by
  rw [submitModel_valid_eq form staff env entry d1 d2 hf hlk he ha hp1 hp2
    hm1 hhalf, if_pos hsheet]
  refine ⟨rfl, ?_⟩
  dsimp only
  rw [hmail, approverEmailFor_unknown entry.approver h1 h2 h3 h4,
    submitEmails_head _ _ _ (by decide)]

/-- Alice's configured approver is "Bob": not in the known set. -/
def staff4 : List StaffEntry := [⟨"Alice", "alice@x.com", "Bob"⟩]

def env4 : Env := ⟨[], true, true, "T0"⟩

theorem C4_counterexample_unknown_approver_not_rejected :
    (submitModel form1 staff4 env4).response
      = .confirmation "Bob" "2024-03-04" "2024-03-06" 3
    ∧ (submitModel form1 staff4 env4).emails
      = [⟨["mw@walton.fr"], [], "Walton Time Off – New request", 3⟩,
         ⟨["alice@x.com"], [], "Walton Time Off – Request received", 3⟩] := by
  decide

theorem C4_unknown_approver_defaults_to_mark_witness :
    isBadRequestB (submitModel form1 staff4 env4).response = false
    ∧ (submitModel form1 staff4 env4).emails.head?
        = some ⟨[pyStrip EMAIL_MARK], [], "Walton Time Off – New request",
            adjust_half_day (business_days 738949 738951) "full"⟩ :=
  C4_unknown_approver_defaults_to_mark form1 staff4 env4
    ⟨"Alice", "alice@x.com", "Bob"⟩ 738949 738951
    (by decide) (by decide) (by decide) (by decide) (by decide) (by decide)
    (by decide) (by decide) rfl rfl
    (by decide) (by decide) (by decide) (by decide)

theorem trySend_true_cc (a s : String) (d : ℚ) (h : a ≠ "") :
    trySend true [a] [ALWAYS_CC] s d = some ⟨[pyStrip a], [ALWAYS_CC], s, d⟩ := by
  have hcc : (([ALWAYS_CC].filter (fun x => x ≠ "")).map pyStrip) = [ALWAYS_CC] := by
    decide
  unfold trySend
  dsimp only
  rw [hcc]
  simp [h]

/-- Claim C5 (amended): in `submit`, a `business_days` result of `-1` is
treated as a rejection — HTTP 400, no record appended, no notification. In
`decision`, however, the sentinel is never checked: when the link
parameters have end < start (and the duration is not half), `-1` is used as
the day count in the appended fallback record, the rendered result page,
and the notification body. -/
theorem C5_sentinel_usage (form : SubmitForm) (staff : List StaffEntry)
    (env : Env) (entry : StaffEntry) (d1 d2 : Nat)
    (q : DecisionQuery) (env3 : Env) (st : String) (e1 e2 : Nat) :
    ((truthy form.employee_name && truthy form.start_date
        && truthy form.end_date && truthy form.type_of_leave) = true →
      lookupLast staff (form.employee_name.getD "") = some entry →
      entry.email ≠ "" → entry.approver ≠ "" →
      parseDate (form.start_date.getD "") = some d1 →
      parseDate (form.end_date.getD "") = some d2 →
      business_days d1 d2 = -1 →
      (submitModel form staff env).response
          = .badRequest "End date cannot be before start"
        ∧ (submitModel form staff env).log = env.log
        ∧ (submitModel form staff env).emails = [])
    ∧ (q.status = some st → (st = "approved" ∨ st = "rejected") →
      parseDate q.sd = some e1 → parseDate q.ed = some e2 → e2 < e1 →
      q.dt ≠ "half" → env3.sheetOk = true →
      findLatestPendingIdx env3.log q.email q.sd q.ed = none →
      decisionDays q.sd q.ed q.dt = -1
        ∧ (decisionModel q env3).log = env3.log ++ [fallbackRec q env3 (-1) st]
        ∧ (decisionModel q env3).response = .page q.name q.email q.sd q.ed (-1) st
        ∧ (env3.emailOk = true → q.email ≠ "" →
            (decisionModel q env3).emails
              = [⟨[pyStrip q.email], [ALWAYS_CC],
                  "Walton Time Off – Request " ++ st, -1⟩])) := by
  constructor
  · intro hf hlk he ha hp1 hp2 hbd
    unfold submitModel
    dsimp only
    rw [hf]
    simp only [not_true, if_false, Bool.not_true]
    rw [hlk]
    dsimp only
    rw [if_neg he, if_neg ha, hp1, hp2]
    dsimp only
    rw [if_pos hbd]
    exact ⟨rfl, rfl, rfl⟩
  · intro hst hv hp1 hp2 hlt hdt hsheet hnone
    have hdays : decisionDays q.sd q.ed q.dt = -1 := by
      unfold decisionDays
      rw [hp1, hp2]
      dsimp only
      unfold business_days
      rw [if_pos hlt]
      unfold adjust_half_day
      rw [if_neg hdt]
    rw [decisionModel_valid q env3 st hst hv]
    refine ⟨hdays, ?_, ?_, ?_⟩
    · dsimp only
      simp only [hsheet, if_true, hnone, hdays]
    · dsimp only
      rw [hdays]
    · intro hm hne
      dsimp only
      rw [hm, hdays, trySend_true_cc q.email _ _ hne]

/-- A decision link with its dates reversed (end before start) and no
matching Pending row. -/
def q5 : DecisionQuery :=
  ⟨some "approved", "alice@x.com", "Alice", "2024-01-05", "2024-01-01", "",
   "full"⟩

def env5 : Env := ⟨[], true, true, "T0"⟩

theorem C5_counterexample_decision_stores_minus_one :
    ((decisionModel q5 env5).log.map (fun r => r.days)) = [-1]
    ∧ (decisionModel q5 env5).response
      = .page "Alice" "alice@x.com" "2024-01-05" "2024-01-01" (-1) "approved"
    ∧ (decisionModel q5 env5).emails
      = [⟨["alice@x.com"], ["mw@walton.fr"],
          "Walton Time Off – Request approved", -1⟩] := by decide

/-- A submission with its dates reversed: start 2024-03-06, end 2024-03-04. -/
def form5 : SubmitForm :=
  ⟨some "Alice", some "2024-03-06", some "2024-03-04", some "full",
   some "Holiday", some ""⟩

theorem C5_sentinel_usage_witness :
    ((submitModel form5 staff1 env5).response
        = .badRequest "End date cannot be before start"
      ∧ (submitModel form5 staff1 env5).log = env5.log
      ∧ (submitModel form5 staff1 env5).emails = [])
    ∧ (decisionDays q5.sd q5.ed q5.dt = -1
      ∧ (decisionModel q5 env5).log
          = env5.log ++ [fallbackRec q5 env5 (-1) "approved"]
      ∧ (decisionModel q5 env5).response
          = .page q5.name q5.email q5.sd q5.ed (-1) "approved"
      ∧ (decisionModel q5 env5).emails
          = [⟨[pyStrip q5.email], [ALWAYS_CC],
              "Walton Time Off – Request " ++ "approved", -1⟩]) :=
  have h := C5_sentinel_usage form5 staff1 env5 ⟨"Alice", "alice@x.com", "Mark"⟩
    738951 738949 q5 env5 "approved" 738890 738886
  have h2 := h.2 rfl (Or.inl rfl) (by decide) (by decide) (by decide)
    (by decide) rfl (by decide)
  ⟨h.1 (by decide) (by decide) (by decide) (by decide) (by decide) (by decide)
    (by decide),
   h2.1, h2.2.1, h2.2.2.1, h2.2.2.2 rfl (by decide)⟩

end Walton
